import Mathlib

/-!
Verification of the board/ship data model of the Battleship tracker
(`src/main.rs`).  The grid is 10×10 (`GRID_SIZE = 10`); a board is a
row-major grid of cell states (`board y x` is `board[y][x]` in the source).
Persistence is modelled as a map from file names to parsed records; the
random generator's `thread_rng` is modelled as an explicit stream of draws,
one `(x, y, is_horizontal)` triple per attempt.
-/

namespace Battleship

/-- Cell states of one board square (`CellState` in `src/main.rs`). -/
inductive CellState where
  | Empty
  | Ship
  | Hit
  | Miss
deriving DecidableEq

/-- The five fixed ship variants (`ShipType` in `src/main.rs`). -/
inductive ShipType where
  | Carrier
  | Battleship
  | Cruiser
  | Submarine
  | Destroyer
deriving DecidableEq

/-- `ShipType::size` from `src/main.rs`. -/
def ShipType.size : ShipType → Nat
  | .Carrier => 5
  | .Battleship => 4
  | .Cruiser => 3
  | .Submarine => 3
  | .Destroyer => 2

/-- `PlacementMode` from `src/main.rs`: `Playing` or `PlacingShip(type, is_horizontal)`. -/
inductive PlacementMode where
  | Playing
  | PlacingShip (t : ShipType) (is_horizontal : Bool)
deriving DecidableEq

/-- A 10×10 grid of cell states, row-major: `b y x` is `board[y][x]`. -/
abbrev Board := Fin 10 → Fin 10 → CellState

/-- The all-`Empty` board (`[[CellState::Empty; GRID_SIZE]; GRID_SIZE]`). -/
def emptyBoard : Board := fun _ _ => CellState.Empty

/-- A single array-cell write `board[row][col] = s`. -/
def set_cell (b : Board) (row col : Fin 10) (s : CellState) : Board :=
  fun r c => if r = row ∧ c = col then s else b r c

/-- `PlacedShip` from `src/main.rs`: ship type, anchor, orientation. -/
structure PlacedShip where
  ship_type : ShipType
  x : Fin 10
  y : Fin 10
  is_horizontal : Bool
deriving DecidableEq

/-- The membership test of the run of `len` cells anchored at `(x, y)`:
exactly the coordinate test used by `GameState::get_ship_at` in
`src/main.rs` (`y == ship.y && x >= ship.x && x < ship.x + size`, and the
transposed test for vertical ships). -/
def inFootprint (x y : Fin 10) (len : Nat) (horiz : Bool) (cx cy : Fin 10) : Bool :=
  if horiz then
    decide (cy = y) && decide (x.val ≤ cx.val) && decide (cx.val < x.val + len)
  else
    decide (cx = x) && decide (y.val ≤ cy.val) && decide (cy.val < y.val + len)

/-- Whether a placed ship's footprint covers coordinate `(cx, cy)`. -/
def covers (s : PlacedShip) (cx cy : Fin 10) : Bool :=
  inFootprint s.x s.y s.ship_type.size s.is_horizontal cx cy

/-- `can_place_ship` from `src/main.rs`: false when the run leaves the grid
(`x + size > GRID_SIZE`, resp. `y`), false when a covered cell is not
`Empty`, true otherwise.  The source reads the board through a shared
reference, so the check is read-only by construction. -/
def can_place_ship (board : Board) (x y : Fin 10) (size : Nat) (is_horizontal : Bool) : Bool :=
  if is_horizontal then
    if hx : 10 < x.val + size then false
    else decide (∀ i, (hi : i < size) →
      board y ⟨x.val + i, by omega⟩ = CellState.Empty)
  else
    if hy : 10 < y.val + size then false
    else decide (∀ i, (hi : i < size) →
      board ⟨y.val + i, by omega⟩ x = CellState.Empty)

/-- `place_ship` from `src/main.rs`: the functional result of the write loop
`board[y][x + i] = Ship` (resp. `board[y + i][x]`) for `i < size`; every
call in the source is guarded by `can_place_ship`, which keeps the whole
run on the grid. -/
def place_ship (board : Board) (x y : Fin 10) (size : Nat) (is_horizontal : Bool) : Board :=
  fun cy cx => if inFootprint x y size is_horizontal cx cy then CellState.Ship else board cy cx

/-- `GameState` from `src/main.rs` (the fields the core mutates). -/
structure GameState where
  player_board : Board
  opponent_board : Board
  selected_x : Fin 10
  selected_y : Fin 10
  is_player_board : Bool
  placement_mode : PlacementMode
  ships_placed : List ShipType
  ship_positions : List PlacedShip

/-- `GameState::default` from `src/main.rs`. -/
def initial_state : GameState :=
  { player_board := emptyBoard
    opponent_board := emptyBoard
    selected_x := 0
    selected_y := 0
    is_player_board := true
    placement_mode := PlacementMode.Playing
    ships_placed := []
    ship_positions := [] }

/-- `GameState::get_ship_at` from `src/main.rs`: first placed ship whose
footprint covers `(x, y)`, if any. -/
def get_ship_at (gs : GameState) (x y : Fin 10) : Option ShipType :=
  (gs.ship_positions.find? (fun s => covers s x y)).map (fun s => s.ship_type)

/-- `GameState::clear_board` from `src/main.rs`: both boards to `Empty`,
both bookkeeping lists emptied. -/
def clear_board (gs : GameState) : GameState :=
  { gs with
      player_board := emptyBoard
      opponent_board := emptyBoard
      ships_placed := []
      ship_positions := [] }

/-- One `(x, y, is_horizontal)` draw of the random generator per attempt. -/
abbrev RngStream := Nat → Fin 10 × Fin 10 × Bool

/-- The per-ship attempt loop of `GameState::place_random_ships`
(`while !placed && attempts < 100`): draw a coordinate and orientation,
test `can_place_ship`; on success place the ship and record it, otherwise
retry until the fuel (the 100-attempt cap) runs out.  `k` indexes the rng
stream; the returned index is where the next ship continues drawing. -/
def place_one_ship (gs : GameState) (t : ShipType) (rng : RngStream) (k : Nat) :
    Nat → GameState × Nat
  | 0 => (gs, k)
  | fuel + 1 =>
    let d := rng k
    if can_place_ship gs.player_board d.1 d.2.1 t.size d.2.2 then
      ({ gs with
          player_board := place_ship gs.player_board d.1 d.2.1 t.size d.2.2
          ship_positions := gs.ship_positions ++ [⟨t, d.1, d.2.1, d.2.2⟩]
          ships_placed := gs.ships_placed ++ [t] }, k + 1)
    else
      place_one_ship gs t rng (k + 1) fuel

/-- The fixed processing order of `GameState::place_random_ships`. -/
def fleet : List ShipType :=
  [ShipType.Carrier, ShipType.Battleship, ShipType.Cruiser,
   ShipType.Submarine, ShipType.Destroyer]

/-- `GameState::place_random_ships` from `src/main.rs`: clear the session
(via `clear_board`), then for each ship type in the fixed fleet order run
the 100-attempt placement loop. -/
def place_random_ships (gs : GameState) (rng : RngStream) : GameState :=
  (fleet.foldl (fun p t => place_one_ship p.1 t rng p.2 100) (clear_board gs, 0)).1

/-- The abstract command surface decoded from keyboard events; each
constructor names one branch of `handle_input` in `src/main.rs`. -/
inductive Cmd where
  | moveUp
  | moveDown
  | moveLeft
  | moveRight
  | toggleBoard
  | selectShip (t : ShipType)
  | rotate
  | confirm
  | cancel
  | markHit
  | markMiss
  | clearCell
  | reset
  | randomPlace (rng : RngStream)

/-- One keyboard command of `handle_input` from `src/main.rs`.  Arrow keys
move the cursor clamped to the grid and apply in every mode; `Ctrl+P`
(random placement) applies in every mode; `Space`/`Enter`/`Escape` act in
`PlacingShip` mode; `Tab`, the digit selectors (guarded by
`ships_placed.contains`), the mark keys `H`/`M`/`C` (own board guarded,
opponent board unconditional) and `R` act in `Playing` mode. -/
def step (gs : GameState) : Cmd → GameState
  | .moveUp =>
    if h : gs.selected_y.val < 9 then
      { gs with selected_y := ⟨gs.selected_y.val + 1, by omega⟩ } else gs
  | .moveDown =>
    if h : 0 < gs.selected_y.val then
      { gs with selected_y := ⟨gs.selected_y.val - 1, by omega⟩ } else gs
  | .moveLeft =>
    if h : 0 < gs.selected_x.val then
      { gs with selected_x := ⟨gs.selected_x.val - 1, by omega⟩ } else gs
  | .moveRight =>
    if h : gs.selected_x.val < 9 then
      { gs with selected_x := ⟨gs.selected_x.val + 1, by omega⟩ } else gs
  | .toggleBoard =>
    match gs.placement_mode with
    | .Playing => { gs with is_player_board := !gs.is_player_board }
    | .PlacingShip _ _ => gs
  | .selectShip t =>
    match gs.placement_mode with
    | .Playing =>
      if t ∈ gs.ships_placed then gs
      else { gs with placement_mode := .PlacingShip t true, is_player_board := true }
    | .PlacingShip _ _ => gs
  | .rotate =>
    match gs.placement_mode with
    | .PlacingShip t horiz => { gs with placement_mode := .PlacingShip t (!horiz) }
    | .Playing => gs
  | .confirm =>
    match gs.placement_mode with
    | .PlacingShip t horiz =>
      if can_place_ship gs.player_board gs.selected_x gs.selected_y t.size horiz then
        { gs with
            player_board := place_ship gs.player_board gs.selected_x gs.selected_y t.size horiz
            ships_placed := gs.ships_placed ++ [t]
            ship_positions := gs.ship_positions ++ [⟨t, gs.selected_x, gs.selected_y, horiz⟩]
            placement_mode := .Playing }
      else gs
    | .Playing => gs
  | .cancel =>
    match gs.placement_mode with
    | .PlacingShip _ _ => { gs with placement_mode := .Playing }
    | .Playing => gs
  | .markHit =>
    match gs.placement_mode with
    | .Playing =>
      if gs.is_player_board then
        if gs.player_board gs.selected_y gs.selected_x = CellState.Ship then
          { gs with player_board := set_cell gs.player_board gs.selected_y gs.selected_x .Hit }
        else gs
      else
        { gs with opponent_board := set_cell gs.opponent_board gs.selected_y gs.selected_x .Hit }
    | .PlacingShip _ _ => gs
  | .markMiss =>
    match gs.placement_mode with
    | .Playing =>
      if gs.is_player_board then
        if gs.player_board gs.selected_y gs.selected_x ≠ CellState.Ship then
          { gs with player_board := set_cell gs.player_board gs.selected_y gs.selected_x .Miss }
        else gs
      else
        { gs with opponent_board := set_cell gs.opponent_board gs.selected_y gs.selected_x .Miss }
    | .PlacingShip _ _ => gs
  | .clearCell =>
    match gs.placement_mode with
    | .Playing =>
      if gs.is_player_board then
        { gs with player_board := set_cell gs.player_board gs.selected_y gs.selected_x .Empty }
      else
        { gs with opponent_board := set_cell gs.opponent_board gs.selected_y gs.selected_x .Empty }
    | .PlacingShip _ _ => gs
  | .reset =>
    match gs.placement_mode with
    | .Playing =>
      { gs with
          player_board := emptyBoard
          opponent_board := emptyBoard
          ships_placed := []
          ship_positions := [] }
    | .PlacingShip _ _ => gs
  | .randomPlace rng => place_random_ships gs rng

/-- `SaveGame` from `src/main.rs`: the persisted record. -/
structure SaveGame where
  name : String
  player_board : Board
  opponent_board : Board
  ship_positions : List PlacedShip
  ships_placed : List ShipType

/-- Modelled from the spec: the save directory as a map from file name to
parsed content.  The source stores one serde-JSON file per session; the
encoding is self-describing and round-trips the derived `SaveGame` struct
exactly, so a file is modelled by its parsed value, with `none` standing
for a record that exists but fails to parse (`Corrupt`) and an absent key
standing for `NotFound`. -/
abbrev FileSystem := List (String × Option SaveGame)

/-- `fs::write`: create or overwrite the file at `path`. -/
def fs_write (fs : FileSystem) (path : String) (content : Option SaveGame) : FileSystem :=
  (path, content) :: fs

/-- `fs::read_to_string` followed by `serde_json::from_str`, under the
file-system model: `none` when no record exists, `some none` when the
record exists but does not parse. -/
def fs_read (fs : FileSystem) (path : String) : Option (Option SaveGame) :=
  fs.lookup path

/-- Modelled from the spec: Rust's `char::is_alphanumeric` (the standard
library predicate used by `sanitize_filename`; the claims proved below
hold for any choice of this predicate). -/
def rust_is_alphanumeric (c : Char) : Bool := c.isAlphanum

/-- `sanitize_filename` from `src/main.rs`: keep alphanumeric characters,
'-' and '_', replace every other character with '_'. -/
def sanitize_filename (name : String) : String :=
  String.mk (name.data.map (fun c =>
    if rust_is_alphanumeric c || c == '-' || c == '_' then c else '_'))

/-- The adjective word list of `generate_random_name` in `src/main.rs`. -/
def adjectives : List String :=
  ["swift", "mighty", "brave", "silent", "golden", "silver", "crimson", "azure",
   "emerald", "fierce", "bold", "clever", "cunning", "daring", "noble", "proud",
   "ancient", "mystic", "hidden", "frozen", "burning", "stormy", "peaceful", "wild"]

/-- The noun word list of `generate_random_name` in `src/main.rs`. -/
def nouns : List String :=
  ["eagle", "shark", "wolf", "tiger", "dragon", "phoenix", "kraken", "falcon",
   "viper", "cobra", "panther", "jaguar", "lion", "bear", "raven", "hawk",
   "thunder", "storm", "wave", "tide", "wind", "fire", "ice", "shadow"]

/-- The verb word list of `generate_random_name` in `src/main.rs`. -/
def verbs : List String :=
  ["strikes", "hunts", "soars", "prowls", "guards", "watches", "waits", "stalks",
   "rises", "falls", "moves", "dances", "fights", "defends", "attacks", "charges",
   "glides", "dives", "leaps", "runs", "flies", "swims", "crawls", "hides"]

/-- `generate_random_name` from `src/main.rs`: one random word from each
24-word list, joined by hyphens; the three `choose` draws are modelled by
explicit indices. -/
def generate_random_name (a n v : Fin 24) : String :=
  adjectives.get ⟨a.val, a.isLt⟩ ++ "-" ++ nouns.get ⟨n.val, n.isLt⟩ ++ "-"
    ++ verbs.get ⟨v.val, v.isLt⟩

/-- `GameState::save_to_file` from `src/main.rs`: take the given name or
generate one, snapshot the session into a `SaveGame`, write it under
`sanitize_filename(name) ++ ".json"`, and return the (unsanitized) name. -/
def save_to_file (gs : GameState) (fs : FileSystem) (name : Option String) (a n v : Fin 24) :
    String × FileSystem :=
  let save_name := match name with
    | some s => s
    | none => generate_random_name a n v
  let save : SaveGame :=
    { name := save_name
      player_board := gs.player_board
      opponent_board := gs.opponent_board
      ship_positions := gs.ship_positions
      ships_placed := gs.ships_placed }
  (save_name, fs_write fs (sanitize_filename save_name ++ ".json") (some save))

/-- `GameState::load_from_file` from `src/main.rs`: read and parse the
record under the sanitized name; on success assign the two boards and the
two bookkeeping lists; on failure (`NotFound` or `Corrupt`, the two `?`
early returns) leave the session untouched.  The Bool reports success. -/
def load_from_file (gs : GameState) (fs : FileSystem) (name : String) : GameState × Bool :=
  match fs_read fs (sanitize_filename name ++ ".json") with
  | none => (gs, false)
  | some none => (gs, false)
  | some (some save) =>
    ({ gs with
        player_board := save.player_board
        opponent_board := save.opponent_board
        ship_positions := save.ship_positions
        ships_placed := save.ships_placed }, true)

/-- The spec's description of the placement check (§4.2), stated from its
words for the refinement comparison with `can_place_ship`: the footprint
stays within grid bounds and every covered cell is `Empty`. -/
def spec_can_place (board : Board) (x y : Fin 10) (len : Nat) (horiz : Bool) : Prop :=
  (if horiz then x.val + len ≤ 10 else y.val + len ≤ 10) ∧
    ∀ cx cy : Fin 10, inFootprint x y len horiz cx cy = true → board cy cx = CellState.Empty

/-- A recorded ship whose whole run stays on the 10×10 grid. -/
def ShipInBounds (s : PlacedShip) : Prop :=
  if s.is_horizontal then s.x.val + s.ship_type.size ≤ 10
  else s.y.val + s.ship_type.size ≤ 10

/-- Every cell covered by a recorded ship holds `Ship` on the board. -/
def Coherent (board : Board) (l : List PlacedShip) : Prop :=
  ∀ s ∈ l, ∀ cx cy : Fin 10, covers s cx cy = true → board cy cx = CellState.Ship

/-- No two recorded ships' footprints share a coordinate. -/
def FootprintsDisjoint (l : List PlacedShip) : Prop :=
  l.Pairwise (fun s1 s2 => ∀ cx cy : Fin 10,
    covers s1 cx cy = true → covers s2 cx cy = true → False)

/-- A deterministic draw stream for concrete runs of the generator: the
first five attempts place the five ships on rows 5 through 9. -/
def rng_rows : RngStream := fun k =>
  match k with
  | 0 => (0, 5, true)
  | 1 => (0, 6, true)
  | 2 => (0, 7, true)
  | 3 => (0, 8, true)
  | _ => (0, 9, true)

/-- The session invariant maintained by guarded placements: recorded
footprints are marked `Ship` on the own board, stay in bounds, and are
pairwise disjoint. -/
def SessionInv (gs : GameState) : Prop :=
  Coherent gs.player_board gs.ship_positions
  ∧ (∀ s ∈ gs.ship_positions, ShipInBounds s)
  ∧ FootprintsDisjoint gs.ship_positions

/-- A concrete stored record used to exercise a successful load. -/
def sample_save : SaveGame :=
  { name := "w"
    player_board := emptyBoard
    opponent_board := emptyBoard
    ship_positions := []
    ships_placed := [] }

/-- A one-record save directory holding `sample_save`. -/
def sample_fs : FileSystem :=
  [(sanitize_filename ("w") ++ ".json", some sample_save)]

/-- A session sitting in `PlacingShip` mode, used to exercise loading
while a manual placement is in progress. -/
def sample_gs : GameState :=
  { initial_state with placement_mode := PlacementMode.PlacingShip ShipType.Carrier true }

theorem inFootprint_true_iff (x y : Fin 10) (len : Nat) (horiz : Bool) (cx cy : Fin 10) :
    inFootprint x y len horiz cx cy = true ↔
      (if horiz then cy = y ∧ x.val ≤ cx.val ∧ cx.val < x.val + len
       else cx = x ∧ y.val ≤ cy.val ∧ cy.val < y.val + len) := by
  unfold inFootprint
  cases horiz <;> simp [and_assoc]

theorem can_place_false_iff (board : Board) (x y : Fin 10) (len : Nat) :
    can_place_ship board x y len false = true ↔
      (y.val + len ≤ 10 ∧
        ∀ cx cy : Fin 10, inFootprint x y len false cx cy = true →
          board cy cx = CellState.Empty) := by
  have hdef : can_place_ship board x y len false =
      (if hy : 10 < y.val + len then false
       else decide (∀ i, (hi : i < len) →
         board ⟨y.val + i, by omega⟩ x = CellState.Empty)) := rfl
  rw [hdef]
  split
  case isTrue hy =>
    simp only [Bool.false_eq_true, false_iff, not_and]
    intro h1
    omega
  case isFalse hy =>
    rw [decide_eq_true_eq]
    constructor
    · intro h
      refine ⟨by omega, ?_⟩
      intro cx cy hfoot
      rw [inFootprint_true_iff] at hfoot
      simp only [Bool.false_eq_true, if_false] at hfoot
      obtain ⟨hcx, hle, hlt⟩ := hfoot
      subst hcx
      have hv := h (cy.val - y.val) (by omega)
      have hveq : y.val + (cy.val - y.val) = cy.val := by omega
      have hEq : (⟨y.val + (cy.val - y.val), by omega⟩ : Fin 10) = cy := Fin.ext hveq
      rw [hEq] at hv
      exact hv
    · rintro ⟨hb, h⟩ i hi
      apply h x ⟨y.val + i, by omega⟩
      rw [inFootprint_true_iff]
      simp only [Bool.false_eq_true, if_false]
      exact ⟨by trivial, by omega, by omega⟩

theorem can_place_horiz_iff (board : Board) (x y : Fin 10) (len : Nat) :
    can_place_ship board x y len true = true ↔
      (x.val + len ≤ 10 ∧
        ∀ cx cy : Fin 10, inFootprint x y len true cx cy = true →
          board cy cx = CellState.Empty) := by
  have hdef : can_place_ship board x y len true =
      (if hx : 10 < x.val + len then false
       else decide (∀ i, (hi : i < len) →
         board y ⟨x.val + i, by omega⟩ = CellState.Empty)) := rfl
  rw [hdef]
  split
  case isTrue hx =>
    simp only [Bool.false_eq_true, false_iff, not_and]
    intro h1
    omega
  case isFalse hx =>
    rw [decide_eq_true_eq]
    constructor
    · intro h
      refine ⟨by omega, ?_⟩
      intro cx cy hfoot
      rw [inFootprint_true_iff] at hfoot
      simp only [if_true] at hfoot
      obtain ⟨hcy, hle, hlt⟩ := hfoot
      subst hcy
      have hv := h (cx.val - x.val) (by omega)
      have hveq : x.val + (cx.val - x.val) = cx.val := by omega
      have hEq : (⟨x.val + (cx.val - x.val), by omega⟩ : Fin 10) = cx := Fin.ext hveq
      rw [hEq] at hv
      exact hv
    · rintro ⟨hb, h⟩ i hi
      apply h ⟨x.val + i, by omega⟩ y
      rw [inFootprint_true_iff]
      simp only [if_true]
      exact ⟨by trivial, by omega, by omega⟩

theorem can_place_true_iff (board : Board) (x y : Fin 10) (len : Nat) (horiz : Bool) :
    can_place_ship board x y len horiz = true ↔ spec_can_place board x y len horiz := by
  cases horiz
  case false => exact can_place_false_iff board x y len
  case true => exact can_place_horiz_iff board x y len

theorem add_ship_invariant (board : Board) (l : List PlacedShip) (t : ShipType)
    (x y : Fin 10) (horiz : Bool)
    (hcan : can_place_ship board x y t.size horiz = true)
    (hcoh : Coherent board l)
    (hb : ∀ s ∈ l, ShipInBounds s)
    (hd : FootprintsDisjoint l) :
    Coherent (place_ship board x y t.size horiz) (l ++ [⟨t, x, y, horiz⟩])
      ∧ (∀ s ∈ l ++ [⟨t, x, y, horiz⟩], ShipInBounds s)
      ∧ FootprintsDisjoint (l ++ [⟨t, x, y, horiz⟩]) := by
  obtain ⟨hbound, hempty⟩ := (can_place_true_iff board x y t.size horiz).mp hcan
  refine ⟨?_, ?_, ?_⟩
  · intro s hs cx cy hcov
    unfold place_ship
    rcases List.mem_append.mp hs with hsl | hsr
    · by_cases hf : inFootprint x y t.size horiz cx cy = true
      · simp [hf]
      · simp only [Bool.not_eq_true] at hf
        simp only [hf, Bool.false_eq_true, if_false]
        exact hcoh s hsl cx cy hcov
    · have hs' : s = ⟨t, x, y, horiz⟩ := List.mem_singleton.mp hsr
      subst hs'
      have hcov' : inFootprint x y t.size horiz cx cy = true := hcov
      simp [hcov']
  · intro s hs
    rcases List.mem_append.mp hs with hsl | hsr
    · exact hb s hsl
    · have hs' : s = ⟨t, x, y, horiz⟩ := List.mem_singleton.mp hsr
      subst hs'
      exact hbound
  · unfold FootprintsDisjoint
    rw [List.pairwise_append]
    refine ⟨hd, by simp, ?_⟩
    intro s1 hs1 s2 hs2 cx cy hc1 hc2
    have hs2' : s2 = ⟨t, x, y, horiz⟩ := List.mem_singleton.mp hs2
    subst hs2'
    have hship := hcoh s1 hs1 cx cy hc1
    have hemp := hempty cx cy hc2
    rw [hship] at hemp
    exact CellState.noConfusion hemp

theorem sessionInv_cleared (gs : GameState) : SessionInv (clear_board gs) :=
  ⟨fun s hs => absurd hs (List.not_mem_nil s),
   fun s hs => absurd hs (List.not_mem_nil s),
   List.Pairwise.nil⟩

theorem place_one_ship_spec (t : ShipType) (rng : RngStream) :
    ∀ (fuel k : Nat) (gs : GameState), SessionInv gs →
      gs.ships_placed = gs.ship_positions.map (fun s => s.ship_type) →
      SessionInv (place_one_ship gs t rng k fuel).1
      ∧ (place_one_ship gs t rng k fuel).1.ships_placed
          = (place_one_ship gs t rng k fuel).1.ship_positions.map (fun s => s.ship_type)
      ∧ ((place_one_ship gs t rng k fuel).1.ship_positions.map (fun s => s.ship_type)
            = gs.ship_positions.map (fun s => s.ship_type)
          ∨ (place_one_ship gs t rng k fuel).1.ship_positions.map (fun s => s.ship_type)
            = gs.ship_positions.map (fun s => s.ship_type) ++ [t])
      ∧ (place_one_ship gs t rng k fuel).1.opponent_board = gs.opponent_board := by
  intro fuel
  induction fuel with
  | zero =>
    intro k gs hinv hlink
    exact ⟨hinv, hlink, Or.inl rfl, rfl⟩
  | succ fuel ih =>
    intro k gs hinv hlink
    simp only [place_one_ship]
    split
    case isTrue hcan =>
      obtain ⟨hcoh, hb, hd⟩ := hinv
      obtain ⟨hcoh', hb', hd'⟩ :=
        add_ship_invariant gs.player_board gs.ship_positions t
          (rng k).1 (rng k).2.1 (rng k).2.2 hcan hcoh hb hd
      refine ⟨⟨hcoh', hb', hd'⟩, ?_, Or.inr ?_, rfl⟩
      · show gs.ships_placed ++ [t] = _
        rw [List.map_append, ← hlink]
        rfl
      · show _ = _
        rw [List.map_append]
        rfl
    case isFalse hcan =>
      exact ih (k + 1) gs hinv hlink

theorem fold_place_spec (rng : RngStream) :
    ∀ (ts : List ShipType) (gs : GameState) (k : Nat), SessionInv gs →
      gs.ships_placed = gs.ship_positions.map (fun s => s.ship_type) →
      SessionInv (ts.foldl (fun p t => place_one_ship p.1 t rng p.2 100) (gs, k)).1
      ∧ (ts.foldl (fun p t => place_one_ship p.1 t rng p.2 100) (gs, k)).1.ships_placed
          = (ts.foldl (fun p t => place_one_ship p.1 t rng p.2 100) (gs, k)).1.ship_positions.map
              (fun s => s.ship_type)
      ∧ (∃ us, us.Sublist ts
          ∧ (ts.foldl (fun p t => place_one_ship p.1 t rng p.2 100) (gs, k)).1.ship_positions.map
              (fun s => s.ship_type)
            = gs.ship_positions.map (fun s => s.ship_type) ++ us)
      ∧ (ts.foldl (fun p t => place_one_ship p.1 t rng p.2 100) (gs, k)).1.opponent_board
          = gs.opponent_board := by
  intro ts
  induction ts with
  | nil =>
    intro gs k hinv hlink
    exact ⟨hinv, hlink, ⟨[], List.Sublist.refl [], (List.append_nil _).symm⟩, rfl⟩
  | cons t ts ih =>
    intro gs k hinv hlink
    obtain ⟨hinv1, hlink1, hstep, hopp1⟩ := place_one_ship_spec t rng 100 k gs hinv hlink
    obtain ⟨hinvf, hlinkf, ⟨us, hsub, heq⟩, hoppf⟩ :=
      ih (place_one_ship gs t rng k 100).1 (place_one_ship gs t rng k 100).2 hinv1 hlink1
    simp only [List.foldl_cons]
    refine ⟨hinvf, hlinkf, ?_, hoppf.trans hopp1⟩
    rcases hstep with h1 | h1
    · exact ⟨us, hsub.cons t, by rw [heq, h1]⟩
    · refine ⟨t :: us, hsub.cons₂ t, ?_⟩
      rw [heq, h1, List.append_assoc]
      rfl

theorem find?_append_sing {α : Type} (p : α → Bool) (l : List α) (a : α)
    (h : ∀ x ∈ l, p x = false) :
    List.find? p (l ++ [a]) = List.find? p [a] := by
  induction l with
  | nil => rfl
  | cons b l ih =>
    have hb := h b (List.mem_cons_self b l)
    rw [List.cons_append, List.find?_cons_of_neg _ (by rw [hb]; exact Bool.false_ne_true)]
    exact ih (fun x hx => h x (List.mem_cons_of_mem b hx))

theorem generate_random_name_pos (a n v : Fin 24) : 0 < (generate_random_name a n v).length := by
  unfold generate_random_name
  simp only [String.length_append]
  have h1 : ("-" : String).length = 1 := rfl
  omega

theorem sanitize_chars (s : String) :
    ∀ c ∈ (sanitize_filename s).data, (rust_is_alphanumeric c || c == '-' || c == '_') = true := by
  intro c hc
  unfold sanitize_filename at hc
  rcases List.mem_map.mp hc with ⟨c0, hc0, rfl⟩
  by_cases h0 : (rust_is_alphanumeric c0 || c0 == '-' || c0 == '_') = true
  · simp [h0]
  · simp only [Bool.not_eq_true] at h0
    simp [h0]

/-- C1: for every session state and every explicit name, saving under that
name and then loading that same name succeeds and reproduces an identical
session: both boards (all 200 cells), the placed-ship list, and the
placed-type set equal those at save time, whatever session the load is
applied to. -/
theorem save_load_roundtrip (gs gs2 : GameState) (fs : FileSystem) (name : String)
    (a n v : Fin 24) :
    (load_from_file gs2 (save_to_file gs fs (some name) a n v).2 name).2 = true
    ∧ (load_from_file gs2 (save_to_file gs fs (some name) a n v).2 name).1.player_board
        = gs.player_board
    ∧ (load_from_file gs2 (save_to_file gs fs (some name) a n v).2 name).1.opponent_board
        = gs.opponent_board
    ∧ (load_from_file gs2 (save_to_file gs fs (some name) a n v).2 name).1.ship_positions
        = gs.ship_positions
    ∧ (load_from_file gs2 (save_to_file gs fs (some name) a n v).2 name).1.ships_placed
        = gs.ships_placed := by
  unfold save_to_file load_from_file fs_write fs_read
  simp [List.lookup]

/-- C2: `can_place_ship` returns true exactly when the run of `length`
cells starting at the given coordinate stays within the 10×10 grid and
every covered cell is `Empty`, for both orientations; being a pure
function of the board, the check does not modify it. -/
theorem can_place_matches_spec (board : Board) (x y : Fin 10) (len : Nat) (horiz : Bool) :
    can_place_ship board x y len horiz = true ↔ spec_can_place board x y len horiz :=
  can_place_true_iff board x y len horiz

/-- C3: after a confirmed placement for which `can_place_ship` returned
true (from a session whose recorded footprints are marked on the board),
every covered cell holds `Ship`, `get_ship_at` returns the placed type on
every covered coordinate, and returns `none` on every coordinate covered
by no placed ship. -/
theorem confirm_placement_correct (gs : GameState) (t : ShipType) (horiz : Bool)
    (hmode : gs.placement_mode = PlacementMode.PlacingShip t horiz)
    (hcan : can_place_ship gs.player_board gs.selected_x gs.selected_y t.size horiz = true)
    (hcoh : Coherent gs.player_board gs.ship_positions) :
    (∀ cx cy : Fin 10, covers ⟨t, gs.selected_x, gs.selected_y, horiz⟩ cx cy = true →
        (step gs Cmd.confirm).player_board cy cx = CellState.Ship)
    ∧ (∀ cx cy : Fin 10, covers ⟨t, gs.selected_x, gs.selected_y, horiz⟩ cx cy = true →
        get_ship_at (step gs Cmd.confirm) cx cy = some t)
    ∧ (∀ cx cy : Fin 10, (∀ s ∈ (step gs Cmd.confirm).ship_positions, covers s cx cy = false) →
        get_ship_at (step gs Cmd.confirm) cx cy = none) := by
  have hstep : step gs Cmd.confirm =
      { gs with
          player_board := place_ship gs.player_board gs.selected_x gs.selected_y t.size horiz
          ships_placed := gs.ships_placed ++ [t]
          ship_positions := gs.ship_positions ++ [⟨t, gs.selected_x, gs.selected_y, horiz⟩]
          placement_mode := PlacementMode.Playing } := by
    simp [step, hmode, hcan]
  obtain ⟨hsb, hse⟩ :=
    (can_place_true_iff gs.player_board gs.selected_x gs.selected_y t.size horiz).mp hcan
  rw [hstep]
  refine ⟨?_, ?_, ?_⟩
  · intro cx cy hcov
    have hcov' : inFootprint gs.selected_x gs.selected_y t.size horiz cx cy = true := hcov
    show place_ship gs.player_board gs.selected_x gs.selected_y t.size horiz cy cx
      = CellState.Ship
    unfold place_ship
    simp [hcov']
  · intro cx cy hcov
    unfold get_ship_at
    have hold : ∀ s ∈ gs.ship_positions, (fun s => covers s cx cy) s = false := by
      intro s hs
      by_contra hne
      simp only [Bool.not_eq_false] at hne
      have h1 := hcoh s hs cx cy hne
      have h2 := hse cx cy hcov
      rw [h1] at h2
      exact CellState.noConfusion h2
    show (List.find? (fun s => covers s cx cy)
        (gs.ship_positions ++ [⟨t, gs.selected_x, gs.selected_y, horiz⟩])).map
          (fun s => s.ship_type) = some t
    rw [find?_append_sing _ _ _ hold,
      @List.find?_cons_of_pos _ (fun s => covers s cx cy) _ [] hcov]
    rfl
  · intro cx cy hall
    unfold get_ship_at
    have hnone : List.find? (fun s => covers s cx cy)
        (gs.ship_positions ++ [⟨t, gs.selected_x, gs.selected_y, horiz⟩]) = none := by
      apply List.find?_eq_none.mpr
      intro s hs
      rw [hall s hs]
      exact Bool.false_ne_true
    show (List.find? (fun s => covers s cx cy)
        (gs.ship_positions ++ [⟨t, gs.selected_x, gs.selected_y, horiz⟩])).map
          (fun s => s.ship_type) = none
    rw [hnone]
    rfl

/-- Witness for C3: confirming a Destroyer at the origin of a fresh session
in `PlacingShip` mode satisfies the hypotheses, and every covered cell of
the result holds `Ship`. -/
theorem confirm_placement_correct_witness :
    ({ initial_state with
        placement_mode := PlacementMode.PlacingShip ShipType.Destroyer true } :
        GameState).placement_mode = PlacementMode.PlacingShip ShipType.Destroyer true
    ∧ can_place_ship ({ initial_state with
        placement_mode := PlacementMode.PlacingShip ShipType.Destroyer true } :
        GameState).player_board 0 0 ShipType.Destroyer.size true = true
    ∧ Coherent ({ initial_state with
        placement_mode := PlacementMode.PlacingShip ShipType.Destroyer true } :
        GameState).player_board ({ initial_state with
        placement_mode := PlacementMode.PlacingShip ShipType.Destroyer true } :
        GameState).ship_positions
    ∧ (∀ cx cy : Fin 10, covers ⟨ShipType.Destroyer, 0, 0, true⟩ cx cy = true →
        (step { initial_state with
            placement_mode := PlacementMode.PlacingShip ShipType.Destroyer true }
          Cmd.confirm).player_board cy cx = CellState.Ship) :=
  ⟨rfl, by decide, fun s hs => absurd hs (List.not_mem_nil s),
   (confirm_placement_correct
      { initial_state with
          placement_mode := PlacementMode.PlacingShip ShipType.Destroyer true }
      ShipType.Destroyer true rfl (by decide)
      (fun s hs => absurd hs (List.not_mem_nil s))).1⟩

/-- C4 (violation witness): from the empty session, select the Carrier
(entering `PlacingShip` mode), run the random generator (which places all
five ships on rows 5 through 9 and leaves the mode untouched), then
confirm at the cursor (0,0): the resulting session records the Carrier
twice, so "at most one instance of each ship type" fails for a state
produced only by successful placements. -/
theorem duplicate_carrier_reachable :
    (((step (step (step initial_state (Cmd.selectShip ShipType.Carrier))
        (Cmd.randomPlace rng_rows)) Cmd.confirm).ship_positions.map
          (fun s => s.ship_type)).count ShipType.Carrier) = 2 := by
  decide

/-- C5: in `Playing` mode, at the selected coordinate: on the own board,
mark-hit writes `Hit` exactly when the cell is `Ship` (otherwise the cell
keeps its value), mark-miss writes `Miss` exactly when the cell is not
`Ship` (a `Ship` cell keeps its value), and clear writes `Empty`
unconditionally; on the opponent board all three writes are
unconditional. -/
theorem marks_in_playing (gs : GameState) (hm : gs.placement_mode = PlacementMode.Playing) :
    (gs.is_player_board = true →
      ((step gs Cmd.markHit).player_board gs.selected_y gs.selected_x =
        (if gs.player_board gs.selected_y gs.selected_x = CellState.Ship then CellState.Hit
         else gs.player_board gs.selected_y gs.selected_x))
      ∧ ((step gs Cmd.markMiss).player_board gs.selected_y gs.selected_x =
        (if gs.player_board gs.selected_y gs.selected_x = CellState.Ship
         then gs.player_board gs.selected_y gs.selected_x else CellState.Miss))
      ∧ (step gs Cmd.clearCell).player_board gs.selected_y gs.selected_x = CellState.Empty)
    ∧ (gs.is_player_board = false →
      ((step gs Cmd.markHit).opponent_board gs.selected_y gs.selected_x = CellState.Hit)
      ∧ ((step gs Cmd.markMiss).opponent_board gs.selected_y gs.selected_x = CellState.Miss)
      ∧ (step gs Cmd.clearCell).opponent_board gs.selected_y gs.selected_x
          = CellState.Empty) := by
  constructor
  · intro hb
    by_cases hc : gs.player_board gs.selected_y gs.selected_x = CellState.Ship
    · refine ⟨?_, ?_, ?_⟩ <;> simp [step, hm, hb, hc, set_cell]
    · refine ⟨?_, ?_, ?_⟩ <;> simp [step, hm, hb, hc, set_cell]
  · intro hb
    refine ⟨?_, ?_, ?_⟩ <;> simp [step, hm, hb, set_cell]

/-- Witness for C5: the fresh session is in `Playing` mode on its own
board, and clearing its selected cell yields `Empty`. -/
theorem marks_in_playing_witness :
    initial_state.placement_mode = PlacementMode.Playing
    ∧ (step initial_state Cmd.clearCell).player_board initial_state.selected_y
        initial_state.selected_x = CellState.Empty :=
  ⟨rfl, ((marks_in_playing initial_state rfl).1 rfl).2.2⟩

/-- C6: for every starting session and every draw stream, the random
generator yields placed types forming a subsequence of the fixed fleet
order Carrier, Battleship, Cruiser, Submarine, Destroyer — hence at most
five ships and never two of the same type — the placed-type set mirrors
the ship list, and every recorded footprint is in bounds and pairwise
non-overlapping. -/
theorem random_placement_properties (gs : GameState) (rng : RngStream) :
    ((place_random_ships gs rng).ship_positions.map (fun s => s.ship_type)).Sublist fleet
    ∧ ((place_random_ships gs rng).ship_positions.map (fun s => s.ship_type)).Nodup
    ∧ (place_random_ships gs rng).ship_positions.length ≤ 5
    ∧ (place_random_ships gs rng).ships_placed
        = (place_random_ships gs rng).ship_positions.map (fun s => s.ship_type)
    ∧ (∀ s ∈ (place_random_ships gs rng).ship_positions, ShipInBounds s)
    ∧ FootprintsDisjoint (place_random_ships gs rng).ship_positions := by
  obtain ⟨hinv, hlink, ⟨us, hsub, heq⟩, hopp⟩ :=
    fold_place_spec rng fleet (clear_board gs) 0 (sessionInv_cleared gs) rfl
  have hmap : (place_random_ships gs rng).ship_positions.map (fun s => s.ship_type) = us := by
    have h2 : (place_random_ships gs rng).ship_positions.map (fun s => s.ship_type)
        = ([] : List ShipType) ++ us := heq
    simpa using h2
  refine ⟨?_, ?_, ?_, hlink, hinv.2.1, hinv.2.2⟩
  · rw [hmap]
    exact hsub
  · rw [hmap]
    exact hsub.nodup (by decide)
  · have hlen : (place_random_ships gs rng).ship_positions.length = us.length := by
      rw [← hmap, List.length_map]
    rw [hlen]
    have h5 := hsub.length_le
    simpa using h5

/-- C7 (violation witness): starting from a session whose opponent board
records a `Hit` at (0,0), one run of the random generator changes that
opponent cell — the generator clears the opponent board rather than
leaving it unchanged. -/
theorem random_placement_opponent_changed :
    (place_random_ships
        { initial_state with opponent_board := set_cell emptyBoard 0 0 CellState.Hit }
        rng_rows).opponent_board 0 0
      ≠ ({ initial_state with opponent_board := set_cell emptyBoard 0 0 CellState.Hit } :
          GameState).opponent_board 0 0 := by
  decide

/-- C7 (amended): a run of the random generator first clears the whole
session — including the opponent board — and then places ships only on the
own board, so afterwards every opponent-board cell is `Empty` (the
opponent board is preserved only when it was already all `Empty`). -/
theorem random_placement_clears_opponent (gs : GameState) (rng : RngStream) :
    ∀ cx cy : Fin 10, (place_random_ships gs rng).opponent_board cy cx = CellState.Empty := by
  obtain ⟨-, -, -, hopp⟩ :=
    fold_place_spec rng fleet (clear_board gs) 0 (sessionInv_cleared gs) rfl
  intro cx cy
  exact congrFun (congrFun hopp cy) cx

/-- C8: whenever a load fails — the record is absent or does not parse —
the in-memory session is left entirely unchanged: no field is assigned. -/
theorem load_failure_unchanged (gs : GameState) (fs : FileSystem) (name : String)
    (h : (load_from_file gs fs name).2 = false) :
    (load_from_file gs fs name).1 = gs := by
  unfold load_from_file at h ⊢
  rcases hr : fs_read fs (sanitize_filename name ++ ".json") with _ | (_ | save)
  · rfl
  · rfl
  · rw [hr] at h
    exact Bool.noConfusion h

/-- Witness for C8: loading a missing name from an empty save directory
fails and leaves the fresh session unchanged. -/
theorem load_failure_unchanged_witness :
    (load_from_file initial_state [] ("nosuch")).2 = false
    ∧ (load_from_file initial_state [] ("nosuch")).1 = initial_state :=
  ⟨rfl, load_failure_unchanged initial_state [] ("nosuch") rfl⟩

/-- C9 (violation witness): saving with the explicit name `""` succeeds
and returns the empty string, so the returned name is not always
non-empty. -/
theorem save_empty_name_returned :
    (save_to_file initial_state [] (some ("")) 0 0 0).1 = ("") := rfl

/-- C9 (amended): a successful save returns the caller-supplied name
unchanged when one is given (so it is non-empty exactly when the supplied
name is); with no name given it returns the generated
adjective-noun-verb hyphenated name, which is non-empty; and sanitizing
the returned name yields only alphanumeric characters, '-' and '_'. -/
theorem save_name_properties (gs : GameState) (fs : FileSystem) (name : Option String)
    (a n v : Fin 24) :
    (∀ s, name = some s → (save_to_file gs fs name a n v).1 = s)
    ∧ (name = none →
        (save_to_file gs fs name a n v).1 = generate_random_name a n v
        ∧ 0 < (save_to_file gs fs name a n v).1.length)
    ∧ (∀ c ∈ (sanitize_filename (save_to_file gs fs name a n v).1).data,
        (rust_is_alphanumeric c || c == '-' || c == '_') = true) := by
  refine ⟨?_, ?_, ?_⟩
  · rintro s rfl
    rfl
  · rintro rfl
    exact ⟨rfl, generate_random_name_pos a n v⟩
  · exact sanitize_chars _

/-- Witness for C9 (amended): an explicit name is returned unchanged, and
a generated name is non-empty. -/
theorem save_name_properties_witness :
    (save_to_file initial_state [] (some ("fleet-one")) 0 0 0).1 = ("fleet-one")
    ∧ 0 < (save_to_file initial_state [] none 0 0 0).1.length :=
  ⟨(save_name_properties initial_state [] (some ("fleet-one")) 0 0 0).1 ("fleet-one") rfl,
   ((save_name_properties initial_state [] none 0 0 0).2.1 rfl).2⟩

/-- C10: a successful load assigns exactly the two boards, the placed-ship
list and the placed-type set from the stored record, while the placement
mode, the selected coordinate and the active-board flag keep their
pre-load values — in particular a load during `PlacingShip` mode does not
return the state machine to `Playing`. -/
theorem load_success_frame (gs : GameState) (fs : FileSystem) (name : String) (save : SaveGame)
    (h : fs_read fs (sanitize_filename name ++ ".json") = some (some save)) :
    (load_from_file gs fs name).2 = true
    ∧ (load_from_file gs fs name).1.placement_mode = gs.placement_mode
    ∧ (load_from_file gs fs name).1.selected_x = gs.selected_x
    ∧ (load_from_file gs fs name).1.selected_y = gs.selected_y
    ∧ (load_from_file gs fs name).1.is_player_board = gs.is_player_board
    ∧ (load_from_file gs fs name).1.player_board = save.player_board
    ∧ (load_from_file gs fs name).1.opponent_board = save.opponent_board
    ∧ (load_from_file gs fs name).1.ship_positions = save.ship_positions
    ∧ (load_from_file gs fs name).1.ships_placed = save.ships_placed := by
  unfold load_from_file
  rw [h]
  exact ⟨rfl, rfl, rfl, rfl, rfl, rfl, rfl, rfl, rfl⟩

/-- Witness for C10: loading the sample record into a session that sits in
`PlacingShip` mode succeeds and leaves the mode in `PlacingShip`. -/
theorem load_success_frame_witness :
    fs_read sample_fs (sanitize_filename ("w") ++ ".json") = some (some sample_save)
    ∧ (load_from_file sample_gs sample_fs ("w")).1.placement_mode
        = PlacementMode.PlacingShip ShipType.Carrier true :=
  ⟨rfl, (load_success_frame sample_gs sample_fs ("w") sample_save rfl).2.1⟩

end Battleship
